import Mathlib

/-!
Verification of the agent-evaluation test orchestrator
(`tests/test_agent_evaluation.py`).

The script is a phased pipeline: Prerequisites -> Setup -> Smoke Test ->
Execution -> Verification, with an exit-registered cleanup handler.  We embed
it shallowly: every external effect (command existence, subprocess outcomes,
health probes, store queries, timestamps) is drawn from an `Env` oracle, and
the orchestrator's own observable actions (filesystem writes, signals,
environment-variable exports, section logs) are recorded in an event trace.
-/

/-- A filesystem path, as a list of segments from the root. -/
abbrev FsPath := List String

/-- Observable actions of the orchestrator process. -/
inductive Ev where
  | sec (title : String)
  | mkdirp (p : FsPath)
  | mkdtempEv (p : FsPath)
  | fileWrite (p : FsPath)
  | gitClone (dest : FsPath)
  | copyTree (src dest : FsPath)
  | spawn (pid : Nat)
  | sig (pid : Nat) (signum : Nat)
  | envSet (key val : String)
  | rmtree (p : FsPath)
deriving DecidableEq, Repr

/-- The filesystem location an event writes to, if any.  Environment-variable
exports, signals, process spawns and log lines touch no filesystem path. -/
def fsTarget : Ev → Option FsPath
  | .mkdirp p => some p
  | .mkdtempEv p => some p
  | .fileWrite p => some p
  | .gitClone p => some p
  | .copyTree _ d => some d
  | .rmtree p => some p
  | _ => none

/-- All filesystem write targets of a trace, in order. -/
def fsTargets (tr : List Ev) : List FsPath := tr.filterMap fsTarget

/-- `isUnder wd p` holds when `p` lies inside (or is) the directory `wd`. -/
def isUnder (wd p : FsPath) : Bool := List.isPrefixOf wd p

/-- Is the event a `kill`-family system call (any signal, including signal 0)? -/
def isKillEv : Ev → Bool
  | .sig _ _ => true
  | _ => false

/-- A wall-clock timestamp as produced by `datetime.now()`: date and time of
day down to microseconds. -/
structure DateTime where
  year : Nat
  month : Nat
  day : Nat
  hour : Nat
  minute : Nat
  second : Nat
  micro : Nat
deriving DecidableEq, Repr

/-- Zero-padded two-digit decimal rendering, as used by `strftime` for
`%m`, `%d`, `%H`, `%M`, `%S`. -/
def pad2 (n : Nat) : List Char := [Nat.digitChar (n / 10 % 10), Nat.digitChar (n % 10)]

/-- Zero-padded four-digit decimal rendering, as used by `strftime` for `%Y`. -/
def pad4 (n : Nat) : List Char :=
  [Nat.digitChar (n / 1000 % 10), Nat.digitChar (n / 100 % 10),
   Nat.digitChar (n / 10 % 10), Nat.digitChar (n % 10)]

/-- `datetime.strftime("%Y%m%d-%H%M%S")`: second resolution, the `micro`
field is not rendered. -/
def strftimeYmdHMS (t : DateTime) : String :=
  String.mk (pad4 t.year ++ pad2 t.month ++ pad2 t.day ++ ['-'] ++
    pad2 t.hour ++ pad2 t.minute ++ pad2 t.second)

/-- `f"agent-eval-test-{timestamp}"` (line 404 of the script). -/
def mkBaseExperimentName (t : DateTime) : String :=
  "agent-eval-test-" ++ strftimeYmdHMS t

/-- Does `needle` occur as a contiguous segment of `hay`? -/
def hasSub (needle : List Char) : List Char → Bool
  | [] => needle.isEmpty
  | c :: t => List.isPrefixOf needle (c :: t) || hasSub needle t

/-- Python's `needle in s` substring test. -/
def containsSub (needle s : String) : Bool := hasSub needle.data s.data

/-- Python's `s.strip()`: drop whitespace from both ends. -/
def pyStrip (s : String) : String :=
  ⟨((s.data.dropWhile Char.isWhitespace).reverse.dropWhile Char.isWhitespace).reverse⟩

/-- Python's `s.lower()` (over the ASCII content exercised here). -/
def pyLower (s : String) : String := ⟨s.data.map Char.toLower⟩

/-- Python's `s.startswith(pre)`. -/
def pyStartsWith (pre s : String) : Bool := List.isPrefixOf pre.data s.data

/-- `"-".join(parts)`. -/
def joinDash : List String → String
  | [] => ""
  | [x] => x
  | x :: xs => x ++ "-" ++ joinDash xs

/-- Python truthiness of an optional string (`None` and `""` are falsy). -/
def truthyStr : Option String → Bool
  | none => false
  | some s => s != ""

/-- Python truthiness of an optional pid (`None` and `0` are falsy). -/
def pidTruthy : Option Nat → Bool
  | none => false
  | some p => p != 0

/-- The `Config` dataclass: user options plus the mutable run context. -/
structure Config where
  skillDir : FsPath
  timeoutSeconds : Nat := 900
  mlflowPort : Nat := 5000
  keepWorkdir : Bool := true
  extraPrompt : String := ""
  trackingUri : Option String := none
  openaiApiKey : Option String := none
  workDir : Option FsPath := none
  experimentName : Option String := none
  experimentId : Option String := none
  logFile : Option FsPath := none
  mlflowServerPid : Option Nat := none
  useExternalServer : Bool := false

/-- Exit code constants of the script. -/
def EXIT_SUCCESS : Nat := 0

def EXIT_SETUP_FAILED : Nat := 1

def EXIT_EXECUTION_FAILED : Nat := 2

def EXIT_VERIFICATION_FAILED : Nat := 3

/-- Behaviour of one bounded external invocation: how long the command would
run, whether launching it raises, and its combined output / exit code if it
completes. -/
structure InvocationBehavior where
  duration : Nat
  raises : Bool
  output : String
  exitCode : Int

/-- Result of `subprocess.run` with a wall-clock `timeout`. -/
inductive BoundedResult where
  | completed (code : Int) (output : String)
  | timedOut
  | startFailure
deriving DecidableEq, Repr

/-- The bounded invocation runner: raising beats running; a run longer than
the timeout raises `TimeoutExpired`; otherwise the command completes. -/
def runBounded (b : InvocationBehavior) (timeout : Nat) : BoundedResult :=
  if b.raises then .startFailure
  else if timeout < b.duration then .timedOut
  else .completed b.exitCode b.output

/-- Outcomes of the three independent store queries of the verification
script, plus whether the outer `uv run python -c` invocation itself ran and
produced parseable JSON.  `none` for a query means the query raised. -/
structure VerifyEnv where
  outerOk : Bool
  datasets : Option Nat
  scorers : Option Nat
  traces : Option Nat

/-- One category line of the verification report. -/
structure CatResult where
  found : Nat
  pass : Bool
deriving DecidableEq, Repr

/-- A query exception is caught per category: the category keeps
`found = 0, pass = False`; a successful query reports its count and passes
iff the count is at least 1. -/
def catOf : Option Nat → CatResult
  | none => ⟨0, false⟩
  | some n => ⟨n, decide (1 ≤ n)⟩

/-- Warnings printed by the verification script, one per failed query, in
source order (datasets, traces, scorers). -/
def queryWarnings (v : VerifyEnv) : List String :=
  (if v.datasets.isNone then ["datasets"] else []) ++
  (if v.traces.isNone then ["traces"] else []) ++
  (if v.scorers.isNone then ["scorers"] else [])

/-- `all_pass`: conjunction of the three per-category predicates. -/
def allPass (v : VerifyEnv) : Bool :=
  (catOf v.datasets).pass && (catOf v.scorers).pass && (catOf v.traces).pass

/-- Exceptions of the modelled Python runtime. -/
inductive PyExn where
  | osError
  | generic
deriving DecidableEq, Repr

/-- External-world outcomes consumed by the cleanup handler. -/
structure CleanupEnv where
  sessionDirExists : Bool
  copyResult : Except PyExn Unit
  termResult : Except PyExn Unit
  stillAlive : Nat → Bool

/-- External-world outcomes consumed by one whole run. -/
structure Env where
  claudeExists : Bool
  gitExists : Bool
  uvExists : Bool
  skillDirExists : Bool
  skillMdExists : Bool
  portAvailable : Bool
  mkdtempName : String
  cloneOk : Bool
  uvSyncOk : Bool
  uvAddOk : Bool
  dbPackagesOk : Bool
  serverPid : Nat
  curlOk : Nat → Bool
  serverAlive : Nat → Bool
  dbUser : String
  now : DateTime
  createExpResult : Option String
  smokeRun : InvocationBehavior
  execRun : InvocationBehavior
  verify : VerifyEnv
  cleanupEnv : CleanupEnv

/-- Result of one phase function: its boolean verdict, the run context after
its mutations, and the events it performed. -/
structure PhaseOut where
  ok : Bool
  cfg : Config
  evs : List Ev

/-- `check_prerequisites`: command lookups, skill-artifact checks, then either
adopt the external endpoint or require the port to be free.  Pure checks; the
only mutation is marking `use_external_server`. -/
def check_prerequisites (env : Env) (cfg : Config) : PhaseOut :=
  let evs := [Ev.sec "Checking Prerequisites"]
  if !env.claudeExists || !env.gitExists || !env.uvExists then ⟨false, cfg, evs⟩
  else if !env.skillDirExists then ⟨false, cfg, evs⟩
  else if !env.skillMdExists then ⟨false, cfg, evs⟩
  else if truthyStr cfg.trackingUri then ⟨true, {cfg with useExternalServer := true}, evs⟩
  else if !env.portAvailable then ⟨false, cfg, evs⟩
  else ⟨true, cfg, evs⟩

/-- Health-poll outcome: server answered at some attempt, the server process
was observed dead at some attempt, or all attempts were used up. -/
inductive PollResult where
  | ready (attempt : Nat)
  | died (attempt : Nat)
  | timedOut
deriving DecidableEq, Repr

/-- Does this poll outcome dump the captured server log to stderr?  Both
failure branches of the source do; the ready branch does not. -/
def surfacesLog : PollResult → Bool
  | .ready _ => false
  | .died _ => true
  | .timedOut => true

/-- The `for attempt in range(max_attempts)` health loop: probe first; on a
failed probe check whether the server process has exited and abort if so;
otherwise sleep and retry; the `else` of the loop is the timeout. -/
def pollFrom (curl alive : Nat → Bool) : Nat → Nat → PollResult
  | 0, _ => .timedOut
  | fuel + 1, attempt =>
    if curl attempt then .ready attempt
    else if alive attempt then pollFrom curl alive fuel (attempt + 1)
    else .died attempt

/-- The attempt ceiling of the health loop. -/
def maxHealthAttempts : Nat := 30

/-- `f"http://127.0.0.1:{port}"`. -/
def localTrackingUri (port : Nat) : String := "http://127.0.0.1:" ++ toString port

/-- `start_mlflow_server`: create the data directories, open the server log,
spawn the server (recording its pid in the run context before polling), then
poll; on success export the tracking URI. -/
def start_mlflow_server (env : Env) (cfg : Config) : PhaseOut :=
  let wd := cfg.workDir.getD []
  let dataDir := wd ++ ["mlflow-data"]
  let logFile := wd ++ ["mlflow-server.log"]
  let evs := [Ev.sec "Starting Local MLflow Server", Ev.mkdirp dataDir,
    Ev.mkdirp (dataDir ++ ["artifacts"]), Ev.fileWrite logFile, Ev.spawn env.serverPid]
  let cfg := {cfg with mlflowServerPid := some env.serverPid}
  match pollFrom env.curlOk env.serverAlive maxHealthAttempts 0 with
  | .ready _ =>
      ⟨true, cfg, evs ++ [Ev.envSet "MLFLOW_TRACKING_URI" (localTrackingUri cfg.mlflowPort)]⟩
  | .died _ => ⟨false, cfg, evs⟩
  | .timedOut => ⟨false, cfg, evs⟩

/-- Experiment creation (the tail of `setup_phase`): run
`mlflow.create_experiment`, strip its stdout into the experiment id, reject
empty or error-bearing output, then export the id (and the OpenAI key when
present). -/
def createExperimentStep (env : Env) (cfg : Config) (evs : List Ev) : PhaseOut :=
  match env.createExpResult with
  | none => ⟨false, cfg, evs⟩
  | some out =>
    let eid := pyStrip out
    let cfg := {cfg with experimentId := some eid}
    if eid == "" || containsSub "Error" eid || containsSub "Traceback" eid then
      ⟨false, cfg, evs⟩
    else
      let evs := evs ++ [Ev.envSet "MLFLOW_EXPERIMENT_ID" eid]
      match cfg.openaiApiKey with
      | some k => ⟨true, cfg, evs ++ [Ev.envSet "OPENAI_API_KEY" k]⟩
      | none => ⟨true, cfg, evs⟩

/-- Experiment naming (middle of `setup_phase`): a timestamped base name; on
Databricks the workspace user is resolved and must be non-empty. -/
def setupAfterServer (env : Env) (cfg : Config) (evs : List Ev) : PhaseOut :=
  let base := mkBaseExperimentName env.now
  if cfg.useExternalServer && pyStartsWith "databricks://" (cfg.trackingUri.getD "") then
    if env.dbUser == "" then ⟨false, cfg, evs⟩
    else
      createExperimentStep env
        {cfg with experimentName := some ("/Users/" ++ env.dbUser ++ "/" ++ base)} evs
  else
    createExperimentStep env {cfg with experimentName := some base} evs

/-- `setup_phase`: make the `test-runs` parent directory, make the working
directory with `mkdtemp`, clone the repository, install the skill, resolve
dependencies, start or adopt a tracking server, then name and create the
experiment. -/
def setup_phase (env : Env) (cfg : Config) : PhaseOut :=
  let testRuns := cfg.skillDir.dropLast ++ ["test-runs"]
  let wd := testRuns ++ [env.mkdtempName]
  let cfg := {cfg with workDir := some wd}
  let evs := [Ev.sec "Setup Phase", Ev.mkdirp testRuns, Ev.mkdtempEv wd]
  if !env.cloneOk then ⟨false, cfg, evs⟩ else
  let evs := evs ++ [Ev.gitClone (wd ++ ["mlflow-agent"])]
  let skillsDir := wd ++ ["mlflow-agent", ".claude", "skills"]
  let evs := evs ++ [Ev.mkdirp skillsDir,
    Ev.copyTree cfg.skillDir (skillsDir ++ ["agent-evaluation"])]
  if !env.uvSyncOk then ⟨false, cfg, evs⟩ else
  if !env.uvAddOk then ⟨false, cfg, evs⟩ else
  if cfg.useExternalServer then
    let uri := cfg.trackingUri.getD ""
    setupAfterServer env cfg
      (evs ++ [Ev.sec "Using External MLflow Server", Ev.envSet "MLFLOW_TRACKING_URI" uri])
  else
    let s := start_mlflow_server env cfg
    if !s.ok then ⟨false, s.cfg, evs ++ s.evs⟩
    else setupAfterServer env s.cfg (evs ++ s.evs)

/-- The smoke test's fixed invocation ceiling (seconds). -/
def smokeTimeoutSeconds : Nat := 120

/-- `test_claude_headless`: one bounded trivial invocation; timeout or launch
failure fails the phase; a completed run fails on empty output or on output
containing both `error` (case-folded) and `Error`. -/
def test_claude_headless (env : Env) (cfg : Config) : PhaseOut :=
  let evs := [Ev.sec "Testing Claude Code Headless Mode"]
  match runBounded env.smokeRun smokeTimeoutSeconds with
  | .timedOut => ⟨false, cfg, evs⟩
  | .startFailure => ⟨false, cfg, evs⟩
  | .completed _ out =>
    if out == "" then ⟨false, cfg, evs⟩
    else if containsSub "error" (pyLower out) && containsSub "Error" out then ⟨false, cfg, evs⟩
    else ⟨true, cfg, evs⟩

/-- `run_claude_code`: record and open the output log, run the bounded long
invocation; a timeout returns success (verification proceeds on whatever
artifacts exist); a launch failure or non-zero exit fails the phase. -/
def run_claude_code (env : Env) (cfg : Config) : PhaseOut :=
  let logFile := cfg.workDir.getD [] ++ ["claude_output.log"]
  let cfg := {cfg with logFile := some logFile}
  let evs := [Ev.sec "Running Claude Code Evaluation", Ev.fileWrite logFile]
  match runBounded env.execRun cfg.timeoutSeconds with
  | .timedOut => ⟨true, cfg, evs⟩
  | .startFailure => ⟨false, cfg, evs⟩
  | .completed code _ => if code != 0 then ⟨false, cfg, evs⟩ else ⟨true, cfg, evs⟩

/-- `verify_results`: run the query script; if it ran and parsed, the verdict
is the conjunction of the three per-category predicates. -/
def verify_results (env : Env) (cfg : Config) : PhaseOut :=
  let evs := [Ev.sec "Verification Phase"]
  if !env.verify.outerOk then ⟨false, cfg, evs⟩
  else ⟨allPass env.verify, cfg, evs⟩

/-- Encoding of the project path used to locate Claude session logs:
`str(work_dir / "mlflow-agent").replace("/", "-")`. -/
def projectPathEncoded (wd : FsPath) : String :=
  "-" ++ joinDash (wd ++ ["mlflow-agent"])

/-- `~/.claude/projects/<encoded>`: where the agent runtime keeps session
logs; read-only for the orchestrator. -/
def claudeSessionDir (wd : FsPath) : FsPath :=
  ["~", ".claude", "projects", projectPathEncoded wd]

/-- The `try`/`except Exception` around the session-log copy loop: a raising
copy is caught and merely logged. -/
def tryCopySessions (r : Except PyExn Unit) (src dst : FsPath) : List Ev :=
  match r with
  | .ok _ => [Ev.copyTree src dst]
  | .error _ => []

/-- The wait-for-termination loop: up to `fuel` existence probes
(`os.kill(pid, 0)`); the first probe that raises `OSError` breaks the loop. -/
def waitLoop (alive : Nat → Bool) (pid : Nat) : Nat → Nat → List Ev
  | _, 0 => []
  | i, fuel + 1 =>
    Ev.sig pid 0 :: (if alive i then waitLoop alive pid (i + 1) fuel else [])

/-- The `try`/`except OSError` around server termination: send `SIGTERM`
(signal 15), then poll for process absence; a raising `kill` is caught and
ignored. -/
def stopServerEvs (cenv : CleanupEnv) (pid : Nat) : List Ev :=
  match cenv.termResult with
  | .error _ => []
  | .ok _ => Ev.sig pid 15 :: waitLoop cenv.stillAlive pid 0 10

/-- First cleanup step: copy the Claude session logs into the working
directory — only when the working directory and the session directory both
exist. -/
def sessionLogEvs (cenv : CleanupEnv) (cfg : Config) : List Ev :=
  match cfg.workDir with
  | none => []
  | some wd =>
    if cenv.sessionDirExists then
      Ev.mkdirp (wd ++ ["claude-sessions"]) ::
        tryCopySessions cenv.copyResult (claudeSessionDir wd) (wd ++ ["claude-sessions"])
    else []

/-- Second cleanup step: stop the MLflow server — only when a pid was recorded
and the run did not use an external endpoint. -/
def serverStopEvs (cenv : CleanupEnv) (cfg : Config) : List Ev :=
  if pidTruthy cfg.mlflowServerPid && !cfg.useExternalServer then
    stopServerEvs cenv (cfg.mlflowServerPid.getD 0)
  else []

/-- Third cleanup step: remove the working directory — only when it exists and
retention is off. -/
def workdirEvs (cfg : Config) : List Ev :=
  match cfg.workDir with
  | none => []
  | some wd => if !cfg.keepWorkdir then [Ev.rmtree wd] else []

/-- The `cleanup` handler.  Each step is guarded by existence of the resource
it acts on: session logs are copied only under an existing working directory
and an existing session directory; the server is signalled only when a pid was
recorded and no external endpoint is in use; the working directory is removed
only when it exists and retention is off.  All fallible operations are caught,
so the handler itself never propagates an exception. -/
def cleanup (cenv : CleanupEnv) (cfg : Config) : Except PyExn (List Ev) :=
  Except.ok (Ev.sec "Cleanup" ::
    (sessionLogEvs cenv cfg ++ serverStopEvs cenv cfg ++ workdirEvs cfg))

/-- The events the registered cleanup handler performs (its non-raising
payload). -/
def cleanupEvs (cenv : CleanupEnv) (cfg : Config) : List Ev :=
  match cleanup cenv cfg with
  | .ok evs => evs
  | .error _ => []

/-- Result of `main`: the returned exit code, the final run context, the
events of the phase pipeline, and how many times the cleanup handler was
registered with `atexit`. -/
structure RunOut where
  code : Nat
  cfg : Config
  trace : List Ev
  registered : Nat

/-- The script's `main`: register cleanup once, then run the five phases in
order, short-circuiting to the phase's exit code on its failure. -/
def mainRun (env : Env) (cfg0 : Config) : RunOut :=
  let registered := 1
  let pre := [Ev.sec "Agent Evaluation Skill Test"]
  let a := check_prerequisites env cfg0
  if !a.ok then ⟨EXIT_SETUP_FAILED, a.cfg, pre ++ a.evs, registered⟩ else
  let b := setup_phase env a.cfg
  if !b.ok then ⟨EXIT_SETUP_FAILED, b.cfg, pre ++ a.evs ++ b.evs, registered⟩ else
  let c := test_claude_headless env b.cfg
  if !c.ok then ⟨EXIT_SETUP_FAILED, c.cfg, pre ++ a.evs ++ b.evs ++ c.evs, registered⟩ else
  let d := run_claude_code env c.cfg
  if !d.ok then
    ⟨EXIT_EXECUTION_FAILED, d.cfg, pre ++ a.evs ++ b.evs ++ c.evs ++ d.evs, registered⟩ else
  let e := verify_results env d.cfg
  if !e.ok then
    ⟨EXIT_VERIFICATION_FAILED, e.cfg,
      pre ++ a.evs ++ b.evs ++ c.evs ++ d.evs ++ e.evs, registered⟩ else
  ⟨EXIT_SUCCESS, e.cfg,
    pre ++ a.evs ++ b.evs ++ c.evs ++ d.evs ++ e.evs ++
      [Ev.sec "Test Completed Successfully"], registered⟩

/-- Result of the whole process: exit code, the complete event trace (pipeline
followed by the exit handlers), and whether every exit handler returned
without raising. -/
structure ProcOut where
  code : Nat
  trace : List Ev
  cleanupOk : Bool

/-- The whole process: run `main`, then run each registered exit handler
once. -/
def runProcess (env : Env) (cfg0 : Config) : ProcOut :=
  let r := mainRun env cfg0
  match cleanup env.cleanupEnv r.cfg with
  | .ok cevs => ⟨r.code, r.trace ++ (List.replicate r.registered cevs).flatten, true⟩
  | .error _ => ⟨r.code, r.trace, false⟩

/-- The run context after the Prerequisites phase. -/
def afterPrereq (env : Env) (cfg0 : Config) : Config := (check_prerequisites env cfg0).cfg

/-- The run context after the Setup phase. -/
def afterSetup (env : Env) (cfg0 : Config) : Config :=
  (setup_phase env (afterPrereq env cfg0)).cfg

/-- The run context after the Smoke Test phase. -/
def afterSmoke (env : Env) (cfg0 : Config) : Config :=
  (test_claude_headless env (afterSetup env cfg0)).cfg

/-- The run context after the Execution phase. -/
def afterExec (env : Env) (cfg0 : Config) : Config :=
  (run_claude_code env (afterSmoke env cfg0)).cfg

/-- Verdict of the Prerequisites phase in a run from `cfg0`. -/
def prereqPassed (env : Env) (cfg0 : Config) : Bool := (check_prerequisites env cfg0).ok

/-- Verdict of the Setup phase in a run from `cfg0`. -/
def setupPassed (env : Env) (cfg0 : Config) : Bool :=
  (setup_phase env (afterPrereq env cfg0)).ok

/-- Verdict of the Smoke Test phase in a run from `cfg0`. -/
def smokePassed (env : Env) (cfg0 : Config) : Bool :=
  (test_claude_headless env (afterSetup env cfg0)).ok

/-- Verdict of the Execution phase in a run from `cfg0`. -/
def execPassed (env : Env) (cfg0 : Config) : Bool :=
  (run_claude_code env (afterSmoke env cfg0)).ok

/-- Verdict of the Verification phase in a run from `cfg0`. -/
def verifyPassed (env : Env) (cfg0 : Config) : Bool :=
  (verify_results env (afterExec env cfg0)).ok

/-- A fully successful local-server run: every external operation succeeds,
the server answers its first health probe, the agent produces all three
artifact categories. -/
def happyEnv : Env where
  claudeExists := true
  gitExists := true
  uvExists := true
  skillDirExists := true
  skillMdExists := true
  portAvailable := true
  mkdtempName := "agent-eval-test-x1"
  cloneOk := true
  uvSyncOk := true
  uvAddOk := true
  dbPackagesOk := true
  serverPid := 4242
  curlOk := fun _ => true
  serverAlive := fun _ => true
  dbUser := ""
  now := ⟨2025, 1, 2, 3, 4, 5, 0⟩
  createExpResult := some "7\n"
  smokeRun := ⟨5, false, "hello world", 0⟩
  execRun := ⟨100, false, "", 0⟩
  verify := ⟨true, some 1, some 1, some 1⟩
  cleanupEnv := ⟨false, Except.ok (), Except.ok (), fun _ => false⟩

/-- The default configuration of a local run: no external endpoint. -/
def cfgLocal : Config where
  skillDir := ["root", "skills", "agent-evaluation"]

/-! ### Helper lemmas: phase shapes -/

lemma verify_results_cfg (env : Env) (cfg : Config) : (verify_results env cfg).cfg = cfg := by
  simp only [verify_results]
  split_ifs <;> rfl

lemma test_claude_headless_cfg (env : Env) (cfg : Config) :
    (test_claude_headless env cfg).cfg = cfg := by
  simp only [test_claude_headless]
  split <;> try rfl
  split_ifs <;> rfl

lemma run_claude_code_cfg (env : Env) (cfg : Config) :
    (run_claude_code env cfg).cfg =
      {cfg with logFile := some (cfg.workDir.getD [] ++ ["claude_output.log"])} := by
  simp only [run_claude_code]
  split <;> try rfl
  split_ifs <;> rfl

lemma mainRun_code (env : Env) (cfg0 : Config) :
    (mainRun env cfg0).code =
      if !prereqPassed env cfg0 then EXIT_SETUP_FAILED
      else if !setupPassed env cfg0 then EXIT_SETUP_FAILED
      else if !smokePassed env cfg0 then EXIT_SETUP_FAILED
      else if !execPassed env cfg0 then EXIT_EXECUTION_FAILED
      else if !verifyPassed env cfg0 then EXIT_VERIFICATION_FAILED
      else EXIT_SUCCESS := by
  simp only [prereqPassed, setupPassed, smokePassed, execPassed, verifyPassed,
    afterPrereq, afterSetup, afterSmoke, afterExec, mainRun]
  split_ifs <;> rfl

lemma mainRun_registered (env : Env) (cfg0 : Config) : (mainRun env cfg0).registered = 1 := by
  simp only [mainRun]
  split_ifs <;> rfl

lemma mainRun_trace_verify (env : Env) (cfg0 : Config)
    (h1 : prereqPassed env cfg0 = true) (h2 : setupPassed env cfg0 = true)
    (h3 : smokePassed env cfg0 = true) (h4 : execPassed env cfg0 = true) :
    Ev.sec "Verification Phase" ∈ (mainRun env cfg0).trace := by
  simp only [prereqPassed, afterPrereq] at h1
  simp only [setupPassed, afterPrereq] at h2
  simp only [smokePassed, afterSetup, afterPrereq] at h3
  simp only [execPassed, afterSmoke, afterSetup, afterPrereq] at h4
  simp only [mainRun, h1, h2, h3, h4, Bool.not_true, Bool.false_eq_true, if_false]
  have hv : Ev.sec "Verification Phase" ∈
      (verify_results env (run_claude_code env
        (test_claude_headless env
          (setup_phase env (check_prerequisites env cfg0).cfg).cfg).cfg).cfg).evs := by
    simp only [verify_results]
    split_ifs <;> simp
  split_ifs <;> simp_all

/-! ### Helper lemmas: which section logs each phase can emit -/

lemma createExperimentStep_secs (env : Env) (cfg : Config) (evs : List Ev) (t : String)
    (h : Ev.sec t ∈ (createExperimentStep env cfg evs).evs) : Ev.sec t ∈ evs := by
  simp only [createExperimentStep] at h
  split at h
  · exact h
  · split_ifs at h
    · exact h
    · split at h <;> simp_all

lemma setupAfterServer_secs (env : Env) (cfg : Config) (evs : List Ev) (t : String)
    (h : Ev.sec t ∈ (setupAfterServer env cfg evs).evs) : Ev.sec t ∈ evs := by
  simp only [setupAfterServer] at h
  split_ifs at h
  · exact h
  · exact createExperimentStep_secs _ _ _ _ h
  · exact createExperimentStep_secs _ _ _ _ h

lemma start_mlflow_server_secs (env : Env) (cfg : Config) (t : String)
    (h : Ev.sec t ∈ (start_mlflow_server env cfg).evs) :
    t = "Starting Local MLflow Server" := by
  simp only [start_mlflow_server] at h
  split at h <;> simp_all

lemma setup_phase_secs (env : Env) (cfg : Config) (t : String)
    (h : Ev.sec t ∈ (setup_phase env cfg).evs) :
    t = "Setup Phase" ∨ t = "Starting Local MLflow Server" ∨
      t = "Using External MLflow Server" := by
  simp only [setup_phase] at h
  split_ifs at h
  · simp_all
  · simp_all
  · simp_all
  · have h2 := setupAfterServer_secs _ _ _ _ h
    simp at h2
    tauto
  · simp at h
    rcases h with h | h
    · tauto
    · have h3 := start_mlflow_server_secs _ _ _ h
      tauto
  · have h2 := setupAfterServer_secs _ _ _ _ h
    simp at h2
    rcases h2 with h2 | h2
    · tauto
    · have h3 := start_mlflow_server_secs _ _ _ h2
      tauto

lemma not_sec_mem_setup (env : Env) (cfg : Config) (t : String)
    (h1 : t ≠ "Setup Phase") (h2 : t ≠ "Starting Local MLflow Server")
    (h3 : t ≠ "Using External MLflow Server") :
    Ev.sec t ∉ (setup_phase env cfg).evs := by
  intro h
  rcases setup_phase_secs env cfg t h with h | h | h <;> simp_all

lemma check_prerequisites_evs (env : Env) (cfg : Config) :
    (check_prerequisites env cfg).evs = [Ev.sec "Checking Prerequisites"] := by
  simp only [check_prerequisites]
  split_ifs <;> rfl

lemma check_prerequisites_workDir (env : Env) (cfg : Config) :
    (check_prerequisites env cfg).cfg.workDir = cfg.workDir := by
  simp only [check_prerequisites]
  split_ifs <;> rfl

lemma test_claude_headless_evs (env : Env) (cfg : Config) :
    (test_claude_headless env cfg).evs = [Ev.sec "Testing Claude Code Headless Mode"] := by
  simp only [test_claude_headless]
  split <;> try rfl
  split_ifs <;> rfl

lemma run_claude_code_evs (env : Env) (cfg : Config) :
    (run_claude_code env cfg).evs = [Ev.sec "Running Claude Code Evaluation",
      Ev.fileWrite (cfg.workDir.getD [] ++ ["claude_output.log"])] := by
  simp only [run_claude_code]
  split <;> try rfl
  split_ifs <;> rfl

lemma verify_results_evs (env : Env) (cfg : Config) :
    (verify_results env cfg).evs = [Ev.sec "Verification Phase"] := by
  simp only [verify_results]
  split_ifs <;> rfl

/-! ### Helper lemmas: process assembly -/

lemma cleanup_isOk (cenv : CleanupEnv) (cfg : Config) :
    cleanup cenv cfg = Except.ok (cleanupEvs cenv cfg) := by
  simp only [cleanup, cleanupEvs]

lemma cleanupEvs_head (cenv : CleanupEnv) (cfg : Config) :
    ∃ tail, cleanupEvs cenv cfg = Ev.sec "Cleanup" :: tail := by
  simp only [cleanupEvs, cleanup]
  exact ⟨_, rfl⟩

lemma runProcess_trace (env : Env) (cfg0 : Config) :
    (runProcess env cfg0).trace =
      (mainRun env cfg0).trace ++ cleanupEvs env.cleanupEnv (mainRun env cfg0).cfg := by
  simp [runProcess, cleanupEvs, cleanup, mainRun_registered]

lemma runProcess_code (env : Env) (cfg0 : Config) :
    (runProcess env cfg0).code = (mainRun env cfg0).code := by
  simp [runProcess, cleanup]

lemma runProcess_cleanupOk (env : Env) (cfg0 : Config) :
    (runProcess env cfg0).cleanupOk = true := by
  simp [runProcess, cleanup]

/-! ### Helper lemmas: trace shapes on early failure -/

lemma mainRun_trace_exec_failed (env : Env) (cfg0 : Config)
    (h1 : prereqPassed env cfg0 = true) (h2 : setupPassed env cfg0 = true)
    (h3 : smokePassed env cfg0 = true) (h4 : execPassed env cfg0 = false) :
    (mainRun env cfg0).trace =
      [Ev.sec "Agent Evaluation Skill Test"] ++ (check_prerequisites env cfg0).evs ++
      (setup_phase env (afterPrereq env cfg0)).evs ++
      (test_claude_headless env (afterSetup env cfg0)).evs ++
      (run_claude_code env (afterSmoke env cfg0)).evs := by
  simp only [prereqPassed, setupPassed, smokePassed, execPassed,
    afterPrereq, afterSetup, afterSmoke] at h1 h2 h3 h4 ⊢
  simp only [mainRun, h1, h2, h3, h4]
  rfl

lemma mainRun_trace_smoke_failed (env : Env) (cfg0 : Config)
    (h1 : prereqPassed env cfg0 = true) (h2 : setupPassed env cfg0 = true)
    (h3 : smokePassed env cfg0 = false) :
    (mainRun env cfg0).trace =
      [Ev.sec "Agent Evaluation Skill Test"] ++ (check_prerequisites env cfg0).evs ++
      (setup_phase env (afterPrereq env cfg0)).evs ++
      (test_claude_headless env (afterSetup env cfg0)).evs := by
  simp only [prereqPassed, setupPassed, smokePassed,
    afterPrereq, afterSetup] at h1 h2 h3 ⊢
  simp only [mainRun, h1, h2, h3]
  rfl

lemma no_verify_sec_exec_failed (env : Env) (cfg0 : Config)
    (h1 : prereqPassed env cfg0 = true) (h2 : setupPassed env cfg0 = true)
    (h3 : smokePassed env cfg0 = true) (h4 : execPassed env cfg0 = false) :
    Ev.sec "Verification Phase" ∉ (mainRun env cfg0).trace := by
  rw [mainRun_trace_exec_failed env cfg0 h1 h2 h3 h4]
  intro h
  simp only [check_prerequisites_evs, test_claude_headless_evs, run_claude_code_evs,
    List.mem_append, List.mem_cons, List.mem_singleton, List.not_mem_nil] at h
  rcases h with ((((h | h) | h) | h) | h) <;>
    first
      | exact not_sec_mem_setup env _ _ (by decide) (by decide) (by decide) h
      | simp_all

lemma no_later_secs_smoke_failed (env : Env) (cfg0 : Config)
    (h1 : prereqPassed env cfg0 = true) (h2 : setupPassed env cfg0 = true)
    (h3 : smokePassed env cfg0 = false) (t : String)
    (ht1 : t ≠ "Agent Evaluation Skill Test") (ht2 : t ≠ "Checking Prerequisites")
    (ht3 : t ≠ "Setup Phase") (ht4 : t ≠ "Starting Local MLflow Server")
    (ht5 : t ≠ "Using External MLflow Server")
    (ht6 : t ≠ "Testing Claude Code Headless Mode") :
    Ev.sec t ∉ (mainRun env cfg0).trace := by
  rw [mainRun_trace_smoke_failed env cfg0 h1 h2 h3]
  intro h
  simp only [check_prerequisites_evs, test_claude_headless_evs,
    List.mem_append, List.mem_cons, List.mem_singleton, List.not_mem_nil] at h
  rcases h with (((h | h) | h) | h) <;>
    first
      | exact not_sec_mem_setup env _ _ ht3 ht4 ht5 h
      | simp_all

/-- C2: if the Execution-phase invocation of the external agent exceeds its
wall-clock timeout, the Execution phase reports success anyway and the
pipeline proceeds to the Verification phase; the exit code is then decided by
Verification alone, so the timeout is not an Execution failure. -/
theorem execution_timeout_proceeds_to_verification (env : Env) (cfg0 : Config)
    (h1 : prereqPassed env cfg0 = true) (h2 : setupPassed env cfg0 = true)
    (h3 : smokePassed env cfg0 = true)
    (hr : env.execRun.raises = false)
    (hd : (afterSmoke env cfg0).timeoutSeconds < env.execRun.duration) :
    execPassed env cfg0 = true ∧
    Ev.sec "Verification Phase" ∈ (mainRun env cfg0).trace ∧
    (mainRun env cfg0).code =
      (if verifyPassed env cfg0 then EXIT_SUCCESS else EXIT_VERIFICATION_FAILED) := by
  have hexec : execPassed env cfg0 = true := by
    simp [execPassed, run_claude_code, runBounded, hr, hd]
  refine ⟨hexec, mainRun_trace_verify env cfg0 h1 h2 h3 hexec, ?_⟩
  rw [mainRun_code]
  simp only [h1, h2, h3, hexec, Bool.not_true, Bool.false_eq_true, if_false]
  cases hv : verifyPassed env cfg0 <;> simp [hv]

/-- A run whose agent invocation would take 1000 s against the default 900 s
timeout. -/
def envC2 : Env := {happyEnv with execRun := ⟨1000, false, "", 0⟩}

/-- C2 witness: the timed-out run still reaches Verification and its Execution
phase counts as passed. -/
theorem execution_timeout_proceeds_to_verification_witness :
    execPassed envC2 cfgLocal = true ∧
    Ev.sec "Verification Phase" ∈ (mainRun envC2 cfgLocal).trace := by
  have h := execution_timeout_proceeds_to_verification envC2 cfgLocal
    (by decide) (by decide) (by decide) (by decide) (by decide)
  exact ⟨h.1, h.2.1⟩

/-- C3: an Execution invocation that completes within its timeout but exits
non-zero fails the Execution phase; the pipeline halts before Verification,
cleanup still runs at exit, and the process exit code is 2. -/
theorem execution_nonzero_exit_halts_with_code_two (env : Env) (cfg0 : Config)
    (h1 : prereqPassed env cfg0 = true) (h2 : setupPassed env cfg0 = true)
    (h3 : smokePassed env cfg0 = true)
    (hr : env.execRun.raises = false)
    (hd : env.execRun.duration ≤ (afterSmoke env cfg0).timeoutSeconds)
    (hc : env.execRun.exitCode ≠ 0) :
    execPassed env cfg0 = false ∧
    (mainRun env cfg0).code = EXIT_EXECUTION_FAILED ∧
    Ev.sec "Verification Phase" ∉ (mainRun env cfg0).trace ∧
    Ev.sec "Cleanup" ∈ (runProcess env cfg0).trace ∧
    (runProcess env cfg0).code = EXIT_EXECUTION_FAILED := by
  have hexec : execPassed env cfg0 = false := by
    simp [execPassed, run_claude_code, runBounded, hr, Nat.not_lt.mpr hd, hc]
  have hcode : (mainRun env cfg0).code = EXIT_EXECUTION_FAILED := by
    rw [mainRun_code]
    simp [h1, h2, h3, hexec]
  refine ⟨hexec, hcode, no_verify_sec_exec_failed env cfg0 h1 h2 h3 hexec, ?_, ?_⟩
  · rw [runProcess_trace]
    obtain ⟨tail, htail⟩ := cleanupEvs_head env.cleanupEnv (mainRun env cfg0).cfg
    simp [htail]
  · rw [runProcess_code, hcode]

/-- A run whose agent invocation completes in time but exits with code 1. -/
def envC3 : Env := {happyEnv with execRun := ⟨100, false, "", 1⟩}

/-- C3 witness: the non-zero-exit run halts before Verification with process
exit code 2, and cleanup still runs. -/
theorem execution_nonzero_exit_halts_with_code_two_witness :
    execPassed envC3 cfgLocal = false ∧
    Ev.sec "Verification Phase" ∉ (mainRun envC3 cfgLocal).trace ∧
    (runProcess envC3 cfgLocal).code = EXIT_EXECUTION_FAILED := by
  have h := execution_nonzero_exit_halts_with_code_two envC3 cfgLocal
    (by decide) (by decide) (by decide) (by decide) (by decide) (by decide)
  exact ⟨h.1, h.2.2.1, h.2.2.2.2⟩

/-- C10: a Smoke Test invocation exceeding its fixed 120-second ceiling fails
the Smoke Test phase and the process exits with code 1; unlike an Execution
timeout, neither the Execution nor the Verification phase is ever entered. -/
theorem smoke_timeout_fails_run_with_code_one (env : Env) (cfg0 : Config)
    (h1 : prereqPassed env cfg0 = true) (h2 : setupPassed env cfg0 = true)
    (hr : env.smokeRun.raises = false)
    (hd : smokeTimeoutSeconds < env.smokeRun.duration) :
    smokePassed env cfg0 = false ∧
    (mainRun env cfg0).code = EXIT_SETUP_FAILED ∧
    (runProcess env cfg0).code = EXIT_SETUP_FAILED ∧
    Ev.sec "Running Claude Code Evaluation" ∉ (mainRun env cfg0).trace ∧
    Ev.sec "Verification Phase" ∉ (mainRun env cfg0).trace := by
  have hsmoke : smokePassed env cfg0 = false := by
    simp [smokePassed, test_claude_headless, runBounded, hr, hd]
  have hcode : (mainRun env cfg0).code = EXIT_SETUP_FAILED := by
    rw [mainRun_code]
    simp [h1, h2, hsmoke]
  refine ⟨hsmoke, hcode, by rw [runProcess_code, hcode], ?_, ?_⟩
  · exact no_later_secs_smoke_failed env cfg0 h1 h2 hsmoke _
      (by decide) (by decide) (by decide) (by decide) (by decide) (by decide)
  · exact no_later_secs_smoke_failed env cfg0 h1 h2 hsmoke _
      (by decide) (by decide) (by decide) (by decide) (by decide) (by decide)

/-- A run whose smoke-test invocation would take 500 s against the fixed
120 s ceiling. -/
def envC10 : Env := {happyEnv with smokeRun := ⟨500, false, "", 0⟩}

/-- C10 witness: the smoke-test timeout ends the run with exit code 1 before
Execution. -/
theorem smoke_timeout_fails_run_with_code_one_witness :
    smokePassed envC10 cfgLocal = false ∧
    (runProcess envC10 cfgLocal).code = EXIT_SETUP_FAILED ∧
    Ev.sec "Running Claude Code Evaluation" ∉ (mainRun envC10 cfgLocal).trace := by
  have h := smoke_timeout_fails_run_with_code_one envC10 cfgLocal
    (by decide) (by decide) (by decide) (by decide)
  exact ⟨h.1, h.2.2.1, h.2.2.2.1⟩

/-- C4: the process exit code is exactly 0 when all five phases pass, 1 when
Prerequisites, Setup or the Smoke Test fails, 2 when Execution fails, and 3
when Verification fails. -/
theorem exit_code_mapping (env : Env) (cfg0 : Config) :
    ((runProcess env cfg0).code = 0 ↔
      prereqPassed env cfg0 = true ∧ setupPassed env cfg0 = true ∧
      smokePassed env cfg0 = true ∧ execPassed env cfg0 = true ∧
      verifyPassed env cfg0 = true) ∧
    ((runProcess env cfg0).code = 1 ↔
      (prereqPassed env cfg0 = false ∨
       (prereqPassed env cfg0 = true ∧ setupPassed env cfg0 = false) ∨
       (prereqPassed env cfg0 = true ∧ setupPassed env cfg0 = true ∧
        smokePassed env cfg0 = false))) ∧
    ((runProcess env cfg0).code = 2 ↔
      (prereqPassed env cfg0 = true ∧ setupPassed env cfg0 = true ∧
       smokePassed env cfg0 = true ∧ execPassed env cfg0 = false)) ∧
    ((runProcess env cfg0).code = 3 ↔
      (prereqPassed env cfg0 = true ∧ setupPassed env cfg0 = true ∧
       smokePassed env cfg0 = true ∧ execPassed env cfg0 = true ∧
       verifyPassed env cfg0 = false)) := by
  rw [runProcess_code, mainRun_code]
  cases h1 : prereqPassed env cfg0 <;> cases h2 : setupPassed env cfg0 <;>
    cases h3 : smokePassed env cfg0 <;> cases h4 : execPassed env cfg0 <;>
    cases h5 : verifyPassed env cfg0 <;>
    simp [EXIT_SUCCESS, EXIT_SETUP_FAILED, EXIT_EXECUTION_FAILED, EXIT_VERIFICATION_FAILED]

/-- C5: a verification category passes iff its count is at least 1; the
overall verdict is the conjunction of the three per-category predicates and
each category is reported individually; a failing store query yields count 0
and a warning for its own category while the other two categories are still
computed from their own queries; on counts 2/0/1 the verdict is fail with
datasets pass, scorers fail, traces pass. -/
theorem verification_category_semantics (v : VerifyEnv) (env : Env) (cfg : Config) :
    ((catOf v.datasets).pass = true ↔ 1 ≤ (catOf v.datasets).found) ∧
    ((catOf v.scorers).pass = true ↔ 1 ≤ (catOf v.scorers).found) ∧
    ((catOf v.traces).pass = true ↔ 1 ≤ (catOf v.traces).found) ∧
    (allPass v = ((catOf v.datasets).pass && (catOf v.scorers).pass &&
      (catOf v.traces).pass)) ∧
    (v.datasets = none → (catOf v.datasets).found = 0 ∧ "datasets" ∈ queryWarnings v) ∧
    (v.scorers = none → (catOf v.scorers).found = 0 ∧ "scorers" ∈ queryWarnings v) ∧
    (v.traces = none → (catOf v.traces).found = 0 ∧ "traces" ∈ queryWarnings v) ∧
    (allPass {v with scorers := none} =
      ((catOf v.datasets).pass && false && (catOf v.traces).pass)) ∧
    (env.verify.outerOk = true → (verify_results env cfg).ok = allPass env.verify) ∧
    (catOf (some 2) = ⟨2, true⟩ ∧ catOf (some 0) = ⟨0, false⟩ ∧
      catOf (some 1) = ⟨1, true⟩ ∧
      allPass ⟨true, some 2, some 0, some 1⟩ = false) := by
  obtain ⟨ok, d, s, tr⟩ := v
  refine ⟨?_, ?_, ?_, rfl, ?_, ?_, ?_, ?_, ?_, by decide⟩
  · cases d <;> simp [catOf]
  · cases s <;> simp [catOf]
  · cases tr <;> simp [catOf]
  · intro h
    subst h
    simp [catOf, queryWarnings]
  · intro h
    subst h
    simp [catOf, queryWarnings]
  · intro h
    subst h
    simp [catOf, queryWarnings]
  · simp [allPass, catOf]
  · intro h
    simp [verify_results, h]

/-- C5 witness: with a store returning 2 datasets, a failing scorers query and
1 trace, the scorers category reports 0 with a warning while the other two
categories keep their own counts. -/
theorem verification_category_semantics_witness :
    (catOf (VerifyEnv.mk true (some 2) none (some 1)).scorers).found = 0 ∧
    "scorers" ∈ queryWarnings (VerifyEnv.mk true (some 2) none (some 1)) ∧
    (verify_results happyEnv cfgLocal).ok = allPass happyEnv.verify := by
  have h := verification_category_semantics (VerifyEnv.mk true (some 2) none (some 1))
    happyEnv cfgLocal
  obtain ⟨-, -, -, -, -, hs, -, -, houter, -⟩ := h
  exact ⟨(hs rfl).1, (hs rfl).2, houter (by decide)⟩

lemma sessionLogEvs_no_sig (cenv : CleanupEnv) (cfg : Config) (p s : Nat) :
    Ev.sig p s ∉ sessionLogEvs cenv cfg := by
  simp only [sessionLogEvs]
  split
  · simp
  · split_ifs
    · intro h
      simp only [tryCopySessions, List.mem_cons] at h
      rcases h with h | h
      · simp at h
      · split at h <;> simp_all
    · simp

lemma workdirEvs_no_sig (cfg : Config) (p s : Nat) : Ev.sig p s ∉ workdirEvs cfg := by
  simp only [workdirEvs]
  split
  · simp
  · split_ifs <;> simp

/-- C6: when the run uses an externally supplied tracking endpoint, cleanup
sends no signal of any kind to any process — stated both for the handler on
any run context with the flag set, and for the context produced by any full
pipeline run that used the external endpoint. -/
theorem cleanup_external_endpoint_sends_no_signal :
    (∀ cenv cfg, cfg.useExternalServer = true →
      ∀ p s, Ev.sig p s ∉ cleanupEvs cenv cfg) ∧
    (∀ env cfg0, (mainRun env cfg0).cfg.useExternalServer = true →
      ∀ p s, Ev.sig p s ∉ cleanupEvs env.cleanupEnv (mainRun env cfg0).cfg) := by
  have base : ∀ cenv cfg, cfg.useExternalServer = true →
      ∀ p s, Ev.sig p s ∉ cleanupEvs cenv cfg := by
    intro cenv cfg h p s hmem
    simp only [cleanupEvs, cleanup, List.mem_cons] at hmem
    rcases hmem with hmem | hmem
    · simp at hmem
    · have hstop : serverStopEvs cenv cfg = [] := by simp [serverStopEvs, h]
      rw [hstop] at hmem
      simp only [List.append_nil, List.mem_append] at hmem
      rcases hmem with hmem | hmem
      · exact sessionLogEvs_no_sig cenv cfg p s hmem
      · exact workdirEvs_no_sig cfg p s hmem
  exact ⟨base, fun env cfg0 h p s => base env.cleanupEnv (mainRun env cfg0).cfg h p s⟩

/-- C6 witness: on a run configured with an external tracking URI, the cleanup
trace contains no signal events. -/
theorem cleanup_external_endpoint_sends_no_signal_witness :
    (mainRun happyEnv {cfgLocal with trackingUri := some "http://x:1"}).cfg.useExternalServer
      = true ∧
    Ev.sig 4242 15 ∉ cleanupEvs happyEnv.cleanupEnv
      (mainRun happyEnv {cfgLocal with trackingUri := some "http://x:1"}).cfg := by
  refine ⟨by decide, ?_⟩
  exact cleanup_external_endpoint_sends_no_signal.2 happyEnv
    {cfgLocal with trackingUri := some "http://x:1"} (by decide) 4242 15
lemma pollFrom_died (curl alive : Nat → Bool) (k : Nat) :
    ∀ fuel a, a ≤ k → k < a + fuel →
    (∀ i, a ≤ i → i ≤ k → curl i = false) →
    (∀ i, a ≤ i → i < k → alive i = true) →
    alive k = false →
    pollFrom curl alive fuel a = .died k := by
  intro fuel
  induction fuel with
  | zero =>
    intro a ha hk _ _ _
    omega
  | succ n ih =>
    intro a ha hk hcurl halive hdead
    have hca : curl a = false := hcurl a (le_refl a) ha
    rcases Nat.eq_or_lt_of_le ha with heq | hlt
    · subst heq
      simp [pollFrom, hca, hdead]
    · have haa : alive a = true := halive a (le_refl a) hlt
      simp only [pollFrom, hca, Bool.false_eq_true, if_false, haa, if_true]
      exact ih (a + 1) hlt (by omega)
        (fun i hi hik => hcurl i (by omega) hik)
        (fun i hi hik => halive i (by omega) hik) hdead

/-- C7: if the supervised server process has exited at probe attempt `k`,
strictly before the 30-attempt ceiling, and no earlier probe succeeded, the
health poll returns the failure observed at attempt `k` — not the
ceiling-exhaustion outcome — it surfaces the captured server log, and
`start_mlflow_server` reports failure. -/
theorem health_poll_fail_fast_on_dead_server (curl alive : Nat → Bool) (k : Nat)
    (hk : k < maxHealthAttempts)
    (hcurl : ∀ i, i ≤ k → curl i = false)
    (halive : ∀ i, i < k → alive i = true)
    (hdead : alive k = false) :
    pollFrom curl alive maxHealthAttempts 0 = .died k ∧
    PollResult.died k ≠ PollResult.timedOut ∧
    surfacesLog (.died k) = true ∧
    (∀ env cfg, env.curlOk = curl → env.serverAlive = alive →
      (start_mlflow_server env cfg).ok = false) := by
  have hpoll : pollFrom curl alive maxHealthAttempts 0 = .died k :=
    pollFrom_died curl alive k maxHealthAttempts 0 (Nat.zero_le k) (by omega)
      (fun i _ hik => hcurl i hik) (fun i _ hik => halive i hik) hdead
  refine ⟨hpoll, by simp, rfl, ?_⟩
  intro env cfg hc ha
  simp only [start_mlflow_server, hc, ha, hpoll]

/-- C7 witness: a server that dies at attempt 2 with no successful probe makes
polling return the death at attempt 2 and the server start fail. -/
theorem health_poll_fail_fast_on_dead_server_witness :
    pollFrom (fun _ => false) (fun i => decide (i < 2)) maxHealthAttempts 0 =
      PollResult.died 2 ∧
    (start_mlflow_server
      {happyEnv with curlOk := fun _ => false, serverAlive := fun i => decide (i < 2)}
      cfgLocal).ok = false := by
  have h := health_poll_fail_fast_on_dead_server (fun _ => false)
    (fun i => decide (i < 2)) 2 (by decide)
    (fun i _ => rfl) (fun i hi => by simp [hi]) (by decide)
  exact ⟨h.1, h.2.2.2 _ cfgLocal rfl rfl⟩
lemma waitLoop_mem (alive : Nat → Bool) (pid : Nat) :
    ∀ fuel i e, e ∈ waitLoop alive pid i fuel → e = Ev.sig pid 0 := by
  intro fuel
  induction fuel with
  | zero =>
    intro i e h
    simp [waitLoop] at h
  | succ n ih =>
    intro i e h
    simp only [waitLoop, List.mem_cons] at h
    rcases h with h | h
    · exact h
    · split at h
      · exact ih (i + 1) e h
      · simp at h

lemma sessionLogEvs_no_sec (cenv : CleanupEnv) (cfg : Config) (t : String) :
    Ev.sec t ∉ sessionLogEvs cenv cfg := by
  simp only [sessionLogEvs]
  split
  · simp
  · split_ifs
    · intro h
      simp only [tryCopySessions, List.mem_cons] at h
      rcases h with h | h
      · simp at h
      · split at h <;> simp_all
    · simp

lemma serverStopEvs_all_sig (cenv : CleanupEnv) (cfg : Config) :
    ∀ e ∈ serverStopEvs cenv cfg, isKillEv e = true := by
  intro e h
  simp only [serverStopEvs] at h
  split_ifs at h
  · simp only [stopServerEvs] at h
    split at h
    · simp at h
    · simp only [List.mem_cons] at h
      rcases h with h | h
      · simp [h, isKillEv]
      · rw [waitLoop_mem _ _ _ _ _ h]
        rfl
  · simp at h

lemma serverStopEvs_no_sec (cenv : CleanupEnv) (cfg : Config) (t : String) :
    Ev.sec t ∉ serverStopEvs cenv cfg := by
  intro h
  have := serverStopEvs_all_sig cenv cfg _ h
  simp [isKillEv] at this

lemma workdirEvs_no_sec (cfg : Config) (t : String) : Ev.sec t ∉ workdirEvs cfg := by
  simp only [workdirEvs]
  split
  · simp
  · split_ifs <;> simp

lemma cleanupEvs_count_sec (cenv : CleanupEnv) (cfg : Config) :
    (cleanupEvs cenv cfg).count (Ev.sec "Cleanup") = 1 := by
  simp only [cleanupEvs, cleanup]
  rw [List.count_cons_self]
  have h0 : (sessionLogEvs cenv cfg ++ serverStopEvs cenv cfg ++ workdirEvs cfg).count
      (Ev.sec "Cleanup") = 0 := by
    rw [List.count_eq_zero]
    intro hmem
    simp only [List.mem_append] at hmem
    rcases hmem with (hmem | hmem) | hmem
    · exact sessionLogEvs_no_sec cenv cfg _ hmem
    · exact serverStopEvs_no_sec cenv cfg _ hmem
    · exact workdirEvs_no_sec cfg _ hmem
  omega

lemma sec_cleanup_not_mem_mainRun (env : Env) (cfg0 : Config) :
    Ev.sec "Cleanup" ∉ (mainRun env cfg0).trace := by
  have hsetup : ∀ cfg, Ev.sec "Cleanup" ∉ (setup_phase env cfg).evs :=
    fun cfg => not_sec_mem_setup env cfg _ (by decide) (by decide) (by decide)
  simp only [mainRun]
  split_ifs <;> intro h <;>
    simp only [check_prerequisites_evs, test_claude_headless_evs, run_claude_code_evs,
      verify_results_evs, List.mem_append, List.mem_cons, List.mem_singleton,
      List.not_mem_nil] at h <;>
    simp at h <;>
    exact hsetup _ h

lemma runProcess_count_cleanup (env : Env) (cfg0 : Config) :
    (runProcess env cfg0).trace.count (Ev.sec "Cleanup") = 1 := by
  rw [runProcess_trace, List.count_append]
  rw [List.count_eq_zero.mpr (sec_cleanup_not_mem_mainRun env cfg0)]
  rw [cleanupEvs_count_sec]

/-- C1: the cleanup handler is registered exactly once before any phase runs,
so it executes exactly once at process exit for every run outcome; it never
propagates an exception whatever the outcomes of its fallible steps; and every
step is guarded by existence of its resource — with no working directory and
no recorded server pid it performs nothing beyond its log line, with no
working directory it touches no filesystem path, and with no recorded pid it
sends no signal. -/
theorem cleanup_exactly_once_and_safe :
    (∀ env cfg0, (mainRun env cfg0).registered = 1) ∧
    (∀ env cfg0, (runProcess env cfg0).trace.count (Ev.sec "Cleanup") = 1) ∧
    (∀ env cfg0, (runProcess env cfg0).cleanupOk = true) ∧
    (∀ cenv cfg, ∃ evs, cleanup cenv cfg = Except.ok evs) ∧
    (∀ cenv cfg, cfg.workDir = none → cfg.mlflowServerPid = none →
      cleanupEvs cenv cfg = [Ev.sec "Cleanup"]) ∧
    (∀ cenv cfg, cfg.workDir = none → fsTargets (cleanupEvs cenv cfg) = []) ∧
    (∀ cenv cfg, cfg.mlflowServerPid = none → ∀ p s, Ev.sig p s ∉ cleanupEvs cenv cfg) := by
  refine ⟨mainRun_registered, runProcess_count_cleanup, runProcess_cleanupOk,
    fun cenv cfg => ⟨cleanupEvs cenv cfg, cleanup_isOk cenv cfg⟩, ?_, ?_, ?_⟩
  · intro cenv cfg hwd hpid
    simp [cleanupEvs, cleanup, sessionLogEvs, serverStopEvs, workdirEvs, hwd, hpid, pidTruthy]
  · intro cenv cfg hwd
    simp only [cleanupEvs, cleanup, fsTargets]
    rw [show sessionLogEvs cenv cfg = [] from by simp [sessionLogEvs, hwd]]
    rw [show workdirEvs cfg = [] from by simp [workdirEvs, hwd]]
    simp only [List.nil_append, List.append_nil, List.filterMap_cons, fsTarget]
    rw [List.filterMap_eq_nil_iff]
    intro e he
    have := serverStopEvs_all_sig cenv cfg e he
    cases e <;> simp_all [isKillEv, fsTarget]
  · intro cenv cfg hpid p s hmem
    simp only [cleanupEvs, cleanup, List.mem_cons] at hmem
    rcases hmem with hmem | hmem
    · simp at hmem
    · have hstop : serverStopEvs cenv cfg = [] := by
        simp [serverStopEvs, hpid, pidTruthy]
      rw [hstop] at hmem
      simp only [List.append_nil, List.mem_append] at hmem
      rcases hmem with hmem | hmem
      · exact sessionLogEvs_no_sig cenv cfg p s hmem
      · exact workdirEvs_no_sig cfg p s hmem

/-- C1 witness: on a context where Setup created nothing, cleanup performs
only its log line even when its fallible steps would raise; on a full happy
run the whole-process trace performs cleanup exactly once. -/
theorem cleanup_exactly_once_and_safe_witness :
    cleanupEvs ⟨true, Except.error PyExn.generic, Except.error PyExn.osError, fun _ => true⟩
      {cfgLocal with workDir := none} = [Ev.sec "Cleanup"] ∧
    (runProcess happyEnv cfgLocal).trace.count (Ev.sec "Cleanup") = 1 := by
  refine ⟨cleanup_exactly_once_and_safe.2.2.2.2.1 _ _ rfl rfl, ?_⟩
  exact cleanup_exactly_once_and_safe.2.1 happyEnv cfgLocal
lemma digitChar_inj : ∀ a, a < 10 → ∀ b, b < 10 → Nat.digitChar a = Nat.digitChar b → a = b := by
  decide

lemma pad2_inj {a b : Nat} (ha : a < 100) (hb : b < 100) (h : pad2 a = pad2 b) : a = b := by
  simp only [pad2, List.cons.injEq, and_true] at h
  obtain ⟨h1, h2⟩ := h
  have e1 := digitChar_inj _ (Nat.mod_lt _ (by omega)) _ (Nat.mod_lt _ (by omega)) h1
  have e2 := digitChar_inj _ (Nat.mod_lt _ (by omega)) _ (Nat.mod_lt _ (by omega)) h2
  omega

lemma pad4_inj {a b : Nat} (ha : a < 10000) (hb : b < 10000) (h : pad4 a = pad4 b) : a = b := by
  simp only [pad4, List.cons.injEq, and_true] at h
  obtain ⟨h1, h2, h3, h4⟩ := h
  have e1 := digitChar_inj _ (Nat.mod_lt _ (by omega)) _ (Nat.mod_lt _ (by omega)) h1
  have e2 := digitChar_inj _ (Nat.mod_lt _ (by omega)) _ (Nat.mod_lt _ (by omega)) h2
  have e3 := digitChar_inj _ (Nat.mod_lt _ (by omega)) _ (Nat.mod_lt _ (by omega)) h3
  have e4 := digitChar_inj _ (Nat.mod_lt _ (by omega)) _ (Nat.mod_lt _ (by omega)) h4
  omega

lemma strftime_inj (t u : DateTime)
    (hty : t.year < 10000) (huy : u.year < 10000)
    (htmo : t.month < 100) (humo : u.month < 100)
    (htd : t.day < 100) (hud : u.day < 100)
    (hth : t.hour < 100) (huh : u.hour < 100)
    (htmi : t.minute < 100) (humi : u.minute < 100)
    (hts : t.second < 100) (hus : u.second < 100)
    (h : strftimeYmdHMS t = strftimeYmdHMS u) :
    t.year = u.year ∧ t.month = u.month ∧ t.day = u.day ∧
    t.hour = u.hour ∧ t.minute = u.minute ∧ t.second = u.second := by
  have hd : pad4 t.year ++ pad2 t.month ++ pad2 t.day ++ ['-'] ++
      pad2 t.hour ++ pad2 t.minute ++ pad2 t.second =
      pad4 u.year ++ pad2 u.month ++ pad2 u.day ++ ['-'] ++
      pad2 u.hour ++ pad2 u.minute ++ pad2 u.second := congrArg String.data h
  simp only [pad4, pad2, List.cons_append, List.nil_append, List.cons.injEq,
    and_true] at hd
  obtain ⟨y1, y2, y3, y4, mo1, mo2, d1, d2, -, h1, h2, mi1, mi2, s1, s2⟩ := hd
  refine ⟨pad4_inj hty huy ?_, pad2_inj htmo humo ?_, pad2_inj htd hud ?_,
    pad2_inj hth huh ?_, pad2_inj htmi humi ?_, pad2_inj hts hus ?_⟩ <;>
    simp only [pad4, pad2, List.cons.injEq, and_true] <;> tauto

lemma mkBaseExperimentName_inj (t u : DateTime) (h : mkBaseExperimentName t = mkBaseExperimentName u) :
    strftimeYmdHMS t = strftimeYmdHMS u := by
  have hd := congrArg String.data h
  simp only [mkBaseExperimentName, String.data_append] at hd
  have := List.append_cancel_left hd
  exact String.ext this

lemma createExperimentStep_name (env : Env) (cfg : Config) (evs : List Ev) :
    (createExperimentStep env cfg evs).cfg.experimentName = cfg.experimentName := by
  simp only [createExperimentStep]
  split
  · rfl
  · split_ifs
    · rfl
    · split <;> rfl

lemma start_mlflow_server_cfg (env : Env) (cfg : Config) :
    (start_mlflow_server env cfg).cfg = {cfg with mlflowServerPid := some env.serverPid} := by
  simp only [start_mlflow_server]
  split <;> rfl

lemma setupAfterServer_name (env : Env) (cfg : Config) (evs : List Ev)
    (hext : cfg.useExternalServer = false) :
    (setupAfterServer env cfg evs).cfg.experimentName =
      some (mkBaseExperimentName env.now) := by
  simp only [setupAfterServer, hext, Bool.false_and, Bool.false_eq_true, if_false]
  rw [createExperimentStep_name]

lemma setup_phase_name (env : Env) (cfg : Config) (hext : cfg.useExternalServer = false)
    (hok : (setup_phase env cfg).ok = true) :
    (setup_phase env cfg).cfg.experimentName = some (mkBaseExperimentName env.now) := by
  simp only [setup_phase, hext, Bool.false_eq_true, if_false] at hok ⊢
  split_ifs at hok ⊢
  all_goals try simp at hok
  rw [setupAfterServer_name]
  rw [start_mlflow_server_cfg]

/-- C8 (amended): an experiment name generated by Setup is determined by the
second-resolution timestamp alone — two local-server runs whose start
timestamps differ in some second-resolution field get distinct names, but the
formatter drops sub-second precision, so any two timestamps sharing the same
second yield the same name. -/
theorem experiment_names_distinct_across_seconds
    (envA envB : Env) (cfgA cfgB : Config)
    (hA : cfgA.useExternalServer = false) (hB : cfgB.useExternalServer = false)
    (hokA : (setup_phase envA cfgA).ok = true) (hokB : (setup_phase envB cfgB).ok = true)
    (bAy : envA.now.year < 10000) (bBy : envB.now.year < 10000)
    (bAmo : envA.now.month < 100) (bBmo : envB.now.month < 100)
    (bAd : envA.now.day < 100) (bBd : envB.now.day < 100)
    (bAh : envA.now.hour < 100) (bBh : envB.now.hour < 100)
    (bAmi : envA.now.minute < 100) (bBmi : envB.now.minute < 100)
    (bAs : envA.now.second < 100) (bBs : envB.now.second < 100)
    (hne : ¬(envA.now.year = envB.now.year ∧ envA.now.month = envB.now.month ∧
      envA.now.day = envB.now.day ∧ envA.now.hour = envB.now.hour ∧
      envA.now.minute = envB.now.minute ∧ envA.now.second = envB.now.second)) :
    (setup_phase envA cfgA).cfg.experimentName ≠
      (setup_phase envB cfgB).cfg.experimentName ∧
    (∀ y mo d h mi s m1 m2, mkBaseExperimentName ⟨y, mo, d, h, mi, s, m1⟩ =
      mkBaseExperimentName ⟨y, mo, d, h, mi, s, m2⟩) := by
  refine ⟨?_, fun y mo d h mi s m1 m2 => rfl⟩
  rw [setup_phase_name envA cfgA hA hokA, setup_phase_name envB cfgB hB hokB]
  intro heq
  simp only [Option.some.injEq] at heq
  exact hne (strftime_inj envA.now envB.now bAy bBy bAmo bBmo bAd bBd bAh bBh
    bAmi bBmi bAs bBs (mkBaseExperimentName_inj _ _ heq))

/-- A run started at 03:04:05.111111. -/
def envC8a : Env := {happyEnv with now := ⟨2025, 1, 2, 3, 4, 5, 111111⟩}

/-- A distinct run (its own working directory) started later, at
03:04:05.999999 — a different instant inside the same second. -/
def envC8b : Env :=
  {happyEnv with now := ⟨2025, 1, 2, 3, 4, 5, 999999⟩, mkdtempName := "agent-eval-test-x2"}

/-- C8 counterexample: two distinct runs, started at different instants, both
complete Setup and generate the identical experiment name, because the
timestamp carries only second resolution. -/
theorem experiment_name_collision_same_second :
    envC8a.now ≠ envC8b.now ∧
    envC8a.mkdtempName ≠ envC8b.mkdtempName ∧
    (setup_phase envC8a (afterPrereq envC8a cfgLocal)).ok = true ∧
    (setup_phase envC8b (afterPrereq envC8b cfgLocal)).ok = true ∧
    (setup_phase envC8a (afterPrereq envC8a cfgLocal)).cfg.experimentName =
      (setup_phase envC8b (afterPrereq envC8b cfgLocal)).cfg.experimentName := by
  refine ⟨by decide, by decide, by decide, by decide, by decide⟩

/-- C8 witness (for the amended claim): two runs one second apart get distinct
experiment names. -/
theorem experiment_names_distinct_across_seconds_witness :
    (setup_phase happyEnv (afterPrereq happyEnv cfgLocal)).cfg.experimentName ≠
      (setup_phase {happyEnv with now := ⟨2025, 1, 2, 3, 4, 6, 0⟩}
        (afterPrereq {happyEnv with now := ⟨2025, 1, 2, 3, 4, 6, 0⟩} cfgLocal)).cfg.experimentName := by
  exact (experiment_names_distinct_across_seconds happyEnv
    {happyEnv with now := ⟨2025, 1, 2, 3, 4, 6, 0⟩}
    (afterPrereq happyEnv cfgLocal)
    (afterPrereq {happyEnv with now := ⟨2025, 1, 2, 3, 4, 6, 0⟩} cfgLocal)
    (by decide) (by decide) (by decide) (by decide)
    (by decide) (by decide) (by decide) (by decide) (by decide) (by decide)
    (by decide) (by decide) (by decide) (by decide) (by decide) (by decide)
    (by decide)).1
lemma isUnder_append (wd xs : FsPath) : isUnder wd (wd ++ xs) = true := by
  induction wd with
  | nil => simp [isUnder, List.isPrefixOf]
  | cons a t ih =>
    simp only [isUnder, List.cons_append, List.isPrefixOf, beq_self_eq_true,
      Bool.true_and] at ih ⊢
    exact ih

lemma isUnder_self (wd : FsPath) : isUnder wd wd = true := by
  have := isUnder_append wd []
  simpa using this

lemma isPrefixOf_length_le (l m : FsPath) (h : List.isPrefixOf l m = true) :
    l.length ≤ m.length := by
  induction l generalizing m with
  | nil => simp
  | cons a t ih =>
    cases m with
    | nil => simp [List.isPrefixOf] at h
    | cons b bs =>
      simp only [List.isPrefixOf, Bool.and_eq_true] at h
      have := ih bs h.2
      simp
      omega

lemma isUnder_parent_false (td : FsPath) (x : String) : isUnder (td ++ [x]) td = false := by
  cases h : isUnder (td ++ [x]) td
  · rfl
  · have := isPrefixOf_length_le _ _ h
    simp at this

lemma fsTargets_append (a b : List Ev) : fsTargets (a ++ b) = fsTargets a ++ fsTargets b := by
  simp [fsTargets]

lemma check_prerequisites_skillDir (env : Env) (cfg : Config) :
    (check_prerequisites env cfg).cfg.skillDir = cfg.skillDir := by
  simp only [check_prerequisites]
  split_ifs <;> rfl

lemma createExperimentStep_workDir (env : Env) (cfg : Config) (evs : List Ev) :
    (createExperimentStep env cfg evs).cfg.workDir = cfg.workDir := by
  simp only [createExperimentStep]
  split
  · rfl
  · split_ifs
    · rfl
    · split <;> rfl

lemma setupAfterServer_workDir (env : Env) (cfg : Config) (evs : List Ev) :
    (setupAfterServer env cfg evs).cfg.workDir = cfg.workDir := by
  simp only [setupAfterServer]
  split_ifs
  · rfl
  · rw [createExperimentStep_workDir]
  · rw [createExperimentStep_workDir]

lemma setup_phase_workDir (env : Env) (cfg : Config) :
    (setup_phase env cfg).cfg.workDir =
      some (cfg.skillDir.dropLast ++ ["test-runs", env.mkdtempName]) := by
  simp only [setup_phase]
  split_ifs
  · simp
  · simp
  · simp
  · rw [setupAfterServer_workDir]
    simp
  · rw [start_mlflow_server_cfg]
    simp
  · rw [setupAfterServer_workDir, start_mlflow_server_cfg]
    simp

lemma isUnder_nil (l : FsPath) : isUnder [] l = true := by
  simp [isUnder, List.isPrefixOf]

lemma isUnder_cons (x : String) (l1 l2 : FsPath) :
    isUnder (x :: l1) (x :: l2) = isUnder l1 l2 := by
  simp [isUnder, List.isPrefixOf]

lemma isUnder_append_general (a l1 l2 : FsPath) :
    isUnder (a ++ l1) (a ++ l2) = isUnder l1 l2 := by
  induction a with
  | nil => simp
  | cons x t ih => simpa [isUnder_cons] using ih

lemma createExperimentStep_fsTargets (env : Env) (cfg : Config) (evs : List Ev) :
    fsTargets (createExperimentStep env cfg evs).evs = fsTargets evs := by
  simp only [createExperimentStep]
  split
  · rfl
  · split_ifs
    · rfl
    · split <;> simp [fsTargets, fsTarget]

lemma setupAfterServer_fsTargets (env : Env) (cfg : Config) (evs : List Ev) :
    fsTargets (setupAfterServer env cfg evs).evs = fsTargets evs := by
  simp only [setupAfterServer]
  split_ifs
  · rfl
  · rw [createExperimentStep_fsTargets]
  · rw [createExperimentStep_fsTargets]

lemma start_mlflow_server_fsTargets (env : Env) (cfg : Config) :
    fsTargets (start_mlflow_server env cfg).evs =
      [cfg.workDir.getD [] ++ ["mlflow-data"],
       cfg.workDir.getD [] ++ ["mlflow-data", "artifacts"],
       cfg.workDir.getD [] ++ ["mlflow-server.log"]] := by
  simp only [start_mlflow_server]
  split <;> simp [fsTargets, fsTarget]

lemma setup_phase_fsTargets (env : Env) (cfg : Config) :
    ∃ rest,
      fsTargets (setup_phase env cfg).evs =
        (cfg.skillDir.dropLast ++ ["test-runs"]) ::
        (cfg.skillDir.dropLast ++ ["test-runs", env.mkdtempName]) :: rest ∧
      ∀ p ∈ rest,
        isUnder (cfg.skillDir.dropLast ++ ["test-runs", env.mkdtempName]) p = true := by
  simp only [setup_phase]
  split_ifs
  · exact ⟨[], by simp [fsTargets, fsTarget], by simp⟩
  · refine ⟨[cfg.skillDir.dropLast ++ ["test-runs", env.mkdtempName, "mlflow-agent"],
      cfg.skillDir.dropLast ++ ["test-runs", env.mkdtempName, "mlflow-agent", ".claude", "skills"],
      cfg.skillDir.dropLast ++ ["test-runs", env.mkdtempName, "mlflow-agent", ".claude", "skills",
        "agent-evaluation"]], by simp [fsTargets, fsTarget], ?_⟩
    intro p hp
    simp only [List.mem_cons, List.not_mem_nil, or_false] at hp
    rcases hp with hp | hp | hp <;> subst hp <;>
      simp [isUnder_append_general, isUnder_cons, isUnder_nil]
  · refine ⟨[cfg.skillDir.dropLast ++ ["test-runs", env.mkdtempName, "mlflow-agent"],
      cfg.skillDir.dropLast ++ ["test-runs", env.mkdtempName, "mlflow-agent", ".claude", "skills"],
      cfg.skillDir.dropLast ++ ["test-runs", env.mkdtempName, "mlflow-agent", ".claude", "skills",
        "agent-evaluation"]], by simp [fsTargets, fsTarget], ?_⟩
    intro p hp
    simp only [List.mem_cons, List.not_mem_nil, or_false] at hp
    rcases hp with hp | hp | hp <;> subst hp <;>
      simp [isUnder_append_general, isUnder_cons, isUnder_nil]
  · refine ⟨[cfg.skillDir.dropLast ++ ["test-runs", env.mkdtempName, "mlflow-agent"],
      cfg.skillDir.dropLast ++ ["test-runs", env.mkdtempName, "mlflow-agent", ".claude", "skills"],
      cfg.skillDir.dropLast ++ ["test-runs", env.mkdtempName, "mlflow-agent", ".claude", "skills",
        "agent-evaluation"]],
      by rw [setupAfterServer_fsTargets]; simp [fsTargets, fsTarget], ?_⟩
    intro p hp
    simp only [List.mem_cons, List.not_mem_nil, or_false] at hp
    rcases hp with hp | hp | hp <;> subst hp <;>
      simp [isUnder_append_general, isUnder_cons, isUnder_nil]
  · refine ⟨[cfg.skillDir.dropLast ++ ["test-runs", env.mkdtempName, "mlflow-agent"],
      cfg.skillDir.dropLast ++ ["test-runs", env.mkdtempName, "mlflow-agent", ".claude", "skills"],
      cfg.skillDir.dropLast ++ ["test-runs", env.mkdtempName, "mlflow-agent", ".claude", "skills",
        "agent-evaluation"],
      cfg.skillDir.dropLast ++ ["test-runs", env.mkdtempName, "mlflow-data"],
      cfg.skillDir.dropLast ++ ["test-runs", env.mkdtempName, "mlflow-data", "artifacts"],
      cfg.skillDir.dropLast ++ ["test-runs", env.mkdtempName, "mlflow-server.log"]],
      by rw [fsTargets_append, start_mlflow_server_fsTargets]; simp [fsTargets, fsTarget], ?_⟩
    intro p hp
    simp only [List.mem_cons, List.not_mem_nil, or_false] at hp
    rcases hp with hp | hp | hp | hp | hp | hp <;> subst hp <;>
      simp [isUnder_append_general, isUnder_cons, isUnder_nil]
  · refine ⟨[cfg.skillDir.dropLast ++ ["test-runs", env.mkdtempName, "mlflow-agent"],
      cfg.skillDir.dropLast ++ ["test-runs", env.mkdtempName, "mlflow-agent", ".claude", "skills"],
      cfg.skillDir.dropLast ++ ["test-runs", env.mkdtempName, "mlflow-agent", ".claude", "skills",
        "agent-evaluation"],
      cfg.skillDir.dropLast ++ ["test-runs", env.mkdtempName, "mlflow-data"],
      cfg.skillDir.dropLast ++ ["test-runs", env.mkdtempName, "mlflow-data", "artifacts"],
      cfg.skillDir.dropLast ++ ["test-runs", env.mkdtempName, "mlflow-server.log"]],
      by rw [setupAfterServer_fsTargets, fsTargets_append, start_mlflow_server_fsTargets]
         simp [fsTargets, fsTarget], ?_⟩
    intro p hp
    simp only [List.mem_cons, List.not_mem_nil, or_false] at hp
    rcases hp with hp | hp | hp | hp | hp | hp <;> subst hp <;>
      simp [isUnder_append_general, isUnder_cons, isUnder_nil]

lemma sessionLogEvs_fsTargets_under (cenv : CleanupEnv) (cfg : Config) (wd : FsPath)
    (h : cfg.workDir = some wd) :
    ∀ p ∈ fsTargets (sessionLogEvs cenv cfg), isUnder wd p = true := by
  intro p hp
  simp only [sessionLogEvs, h] at hp
  split_ifs at hp
  · cases hcr : cenv.copyResult with
    | ok u =>
      simp only [tryCopySessions, hcr, fsTargets, List.filterMap_cons, fsTarget,
        List.filterMap_nil, List.mem_cons, List.not_mem_nil, or_false] at hp
      rcases hp with hp | hp <;> subst hp <;> exact isUnder_append wd _
    | error e =>
      simp only [tryCopySessions, hcr, fsTargets, List.filterMap_cons, fsTarget,
        List.filterMap_nil, List.mem_cons, List.not_mem_nil, or_false] at hp
      subst hp
      exact isUnder_append wd _
  · simp [fsTargets] at hp

lemma serverStopEvs_fsTargets (cenv : CleanupEnv) (cfg : Config) :
    fsTargets (serverStopEvs cenv cfg) = [] := by
  simp only [fsTargets]
  rw [List.filterMap_eq_nil_iff]
  intro e he
  have := serverStopEvs_all_sig cenv cfg e he
  cases e <;> simp_all [isKillEv, fsTarget]

lemma workdirEvs_fsTargets_under (cfg : Config) (wd : FsPath) (h : cfg.workDir = some wd) :
    ∀ p ∈ fsTargets (workdirEvs cfg), isUnder wd p = true := by
  intro p hp
  simp only [workdirEvs, h] at hp
  split_ifs at hp
  · simp only [fsTargets, List.filterMap_cons, fsTarget, List.filterMap_nil,
      List.mem_singleton] at hp
    rw [hp]
    exact isUnder_self wd
  · simp [fsTargets] at hp

lemma cleanupEvs_fsTargets_under (cenv : CleanupEnv) (cfg : Config) (wd : FsPath)
    (h : cfg.workDir = some wd) :
    ∀ p ∈ fsTargets (cleanupEvs cenv cfg), isUnder wd p = true := by
  intro p hp
  simp only [cleanupEvs, cleanup, fsTargets, List.filterMap_cons, fsTarget,
    List.filterMap_append, List.mem_append] at hp
  rcases hp with (hp | hp) | hp
  · exact sessionLogEvs_fsTargets_under cenv cfg wd h p hp
  · rw [show List.filterMap fsTarget (serverStopEvs cenv cfg) =
      fsTargets (serverStopEvs cenv cfg) from rfl, serverStopEvs_fsTargets] at hp
    simp at hp
  · exact workdirEvs_fsTargets_under cfg wd h p hp

lemma cleanupEvs_fsTargets_none (cenv : CleanupEnv) (cfg : Config)
    (h : cfg.workDir = none) : fsTargets (cleanupEvs cenv cfg) = [] := by
  simp only [cleanupEvs, cleanup, fsTargets, List.filterMap_cons, fsTarget,
    List.filterMap_append]
  rw [show sessionLogEvs cenv cfg = [] from by simp [sessionLogEvs, h]]
  rw [show workdirEvs cfg = [] from by simp [workdirEvs, h]]
  rw [show List.filterMap fsTarget (serverStopEvs cenv cfg) =
    fsTargets (serverStopEvs cenv cfg) from rfl, serverStopEvs_fsTargets]
  simp

lemma mainRun_trace_prereq_failed (env : Env) (cfg0 : Config)
    (h1 : prereqPassed env cfg0 = false) :
    (mainRun env cfg0).trace =
      [Ev.sec "Agent Evaluation Skill Test"] ++ (check_prerequisites env cfg0).evs := by
  simp only [prereqPassed] at h1
  simp only [mainRun, h1]
  rfl

lemma mainRun_trace_setup_failed (env : Env) (cfg0 : Config)
    (h1 : prereqPassed env cfg0 = true) (h2 : setupPassed env cfg0 = false) :
    (mainRun env cfg0).trace =
      [Ev.sec "Agent Evaluation Skill Test"] ++ (check_prerequisites env cfg0).evs ++
      (setup_phase env (afterPrereq env cfg0)).evs := by
  simp only [prereqPassed, setupPassed, afterPrereq] at h1 h2 ⊢
  simp only [mainRun, h1, h2]
  rfl

lemma mainRun_trace_verify_failed (env : Env) (cfg0 : Config)
    (h1 : prereqPassed env cfg0 = true) (h2 : setupPassed env cfg0 = true)
    (h3 : smokePassed env cfg0 = true) (h4 : execPassed env cfg0 = true)
    (h5 : verifyPassed env cfg0 = false) :
    (mainRun env cfg0).trace =
      [Ev.sec "Agent Evaluation Skill Test"] ++ (check_prerequisites env cfg0).evs ++
      (setup_phase env (afterPrereq env cfg0)).evs ++
      (test_claude_headless env (afterSetup env cfg0)).evs ++
      (run_claude_code env (afterSmoke env cfg0)).evs ++
      (verify_results env (afterExec env cfg0)).evs := by
  simp only [prereqPassed, setupPassed, smokePassed, execPassed, verifyPassed,
    afterPrereq, afterSetup, afterSmoke, afterExec] at h1 h2 h3 h4 h5 ⊢
  simp only [mainRun, h1, h2, h3, h4, h5]
  rfl

lemma mainRun_trace_all_passed (env : Env) (cfg0 : Config)
    (h1 : prereqPassed env cfg0 = true) (h2 : setupPassed env cfg0 = true)
    (h3 : smokePassed env cfg0 = true) (h4 : execPassed env cfg0 = true)
    (h5 : verifyPassed env cfg0 = true) :
    (mainRun env cfg0).trace =
      [Ev.sec "Agent Evaluation Skill Test"] ++ (check_prerequisites env cfg0).evs ++
      (setup_phase env (afterPrereq env cfg0)).evs ++
      (test_claude_headless env (afterSetup env cfg0)).evs ++
      (run_claude_code env (afterSmoke env cfg0)).evs ++
      (verify_results env (afterExec env cfg0)).evs ++
      [Ev.sec "Test Completed Successfully"] := by
  simp only [prereqPassed, setupPassed, smokePassed, execPassed, verifyPassed,
    afterPrereq, afterSetup, afterSmoke, afterExec] at h1 h2 h3 h4 h5 ⊢
  simp only [mainRun, h1, h2, h3, h4, h5]
  rfl

lemma mainRun_cfg_prereq_failed (env : Env) (cfg0 : Config)
    (h1 : prereqPassed env cfg0 = false) :
    (mainRun env cfg0).cfg = (check_prerequisites env cfg0).cfg := by
  simp only [prereqPassed] at h1
  simp only [mainRun, h1]
  rfl

lemma mainRun_workDir (env : Env) (cfg0 : Config) (h1 : prereqPassed env cfg0 = true) :
    (mainRun env cfg0).cfg.workDir =
      some (cfg0.skillDir.dropLast ++ ["test-runs", env.mkdtempName]) := by
  simp only [prereqPassed] at h1
  simp only [mainRun, h1]
  have hsd := check_prerequisites_skillDir env cfg0
  have hwd := setup_phase_workDir env (check_prerequisites env cfg0).cfg
  split_ifs <;>
    simp_all [verify_results_cfg, run_claude_code_cfg, test_claude_headless_cfg, hwd, hsd]

lemma mainRun_fsTargets (env : Env) (cfg0 : Config) :
    (fsTargets (mainRun env cfg0).trace = [] ∧
      (mainRun env cfg0).cfg.workDir = cfg0.workDir) ∨
    ∃ rest, fsTargets (mainRun env cfg0).trace =
      (cfg0.skillDir.dropLast ++ ["test-runs"]) ::
      (cfg0.skillDir.dropLast ++ ["test-runs", env.mkdtempName]) :: rest ∧
      (∀ p ∈ rest, isUnder (cfg0.skillDir.dropLast ++ ["test-runs", env.mkdtempName]) p
        = true) ∧
      (mainRun env cfg0).cfg.workDir =
        some (cfg0.skillDir.dropLast ++ ["test-runs", env.mkdtempName]) := by
  have hsd : (afterPrereq env cfg0).skillDir = cfg0.skillDir :=
    check_prerequisites_skillDir env cfg0
  by_cases h1 : prereqPassed env cfg0 = true
  case neg =>
    left
    have h1f : prereqPassed env cfg0 = false := by
      revert h1
      cases prereqPassed env cfg0 <;> simp
    constructor
    · rw [mainRun_trace_prereq_failed env cfg0 h1f]
      simp [check_prerequisites_evs, fsTargets, fsTarget]
    · rw [mainRun_cfg_prereq_failed env cfg0 h1f, check_prerequisites_workDir]
  case pos =>
    right
    have hWD := mainRun_workDir env cfg0 h1
    obtain ⟨rest, hset, hrest⟩ := setup_phase_fsTargets env (afterPrereq env cfg0)
    rw [hsd] at hset hrest
    have hwdSm : (afterSmoke env cfg0).workDir =
        some (cfg0.skillDir.dropLast ++ ["test-runs", env.mkdtempName]) := by
      show (test_claude_headless env (afterSetup env cfg0)).cfg.workDir = _
      rw [test_claude_headless_cfg]
      show (setup_phase env (afterPrereq env cfg0)).cfg.workDir = _
      rw [setup_phase_workDir, hsd]
    have hexecT : fsTargets (run_claude_code env (afterSmoke env cfg0)).evs =
        [cfg0.skillDir.dropLast ++ ["test-runs", env.mkdtempName, "claude_output.log"]] := by
      rw [run_claude_code_evs, hwdSm]
      simp [fsTargets, fsTarget]
    have hunder : ∀ p ∈ rest ++
        [cfg0.skillDir.dropLast ++ ["test-runs", env.mkdtempName, "claude_output.log"]],
        isUnder (cfg0.skillDir.dropLast ++ ["test-runs", env.mkdtempName]) p = true := by
      intro p hp
      rcases List.mem_append.mp hp with hp | hp
      · exact hrest p hp
      · simp only [List.mem_singleton] at hp
        rw [hp]
        simp [isUnder_append_general, isUnder_cons, isUnder_nil]
    by_cases h2 : setupPassed env cfg0 = true
    case neg =>
      refine ⟨rest, ?_, hrest, hWD⟩
      rw [mainRun_trace_setup_failed env cfg0 h1
        (by revert h2; cases setupPassed env cfg0 <;> simp)]
      rw [fsTargets_append, fsTargets_append, hset, check_prerequisites_evs]
      simp [fsTargets, fsTarget]
    case pos =>
    by_cases h3 : smokePassed env cfg0 = true
    case neg =>
      refine ⟨rest, ?_, hrest, hWD⟩
      rw [mainRun_trace_smoke_failed env cfg0 h1 h2
        (by revert h3; cases smokePassed env cfg0 <;> simp)]
      rw [fsTargets_append, fsTargets_append, fsTargets_append, hset,
        check_prerequisites_evs, test_claude_headless_evs]
      simp [fsTargets, fsTarget]
    case pos =>
    by_cases h4 : execPassed env cfg0 = true
    case neg =>
      refine ⟨rest ++
        [cfg0.skillDir.dropLast ++ ["test-runs", env.mkdtempName, "claude_output.log"]],
        ?_, hunder, hWD⟩
      rw [mainRun_trace_exec_failed env cfg0 h1 h2 h3
        (by revert h4; cases execPassed env cfg0 <;> simp)]
      rw [fsTargets_append, fsTargets_append, fsTargets_append, fsTargets_append, hset,
        hexecT, check_prerequisites_evs, test_claude_headless_evs]
      simp [fsTargets, fsTarget]
    case pos =>
    by_cases h5 : verifyPassed env cfg0 = true
    case neg =>
      refine ⟨rest ++
        [cfg0.skillDir.dropLast ++ ["test-runs", env.mkdtempName, "claude_output.log"]],
        ?_, hunder, hWD⟩
      rw [mainRun_trace_verify_failed env cfg0 h1 h2 h3 h4
        (by revert h5; cases verifyPassed env cfg0 <;> simp)]
      rw [fsTargets_append, fsTargets_append, fsTargets_append, fsTargets_append,
        fsTargets_append, hset, hexecT, check_prerequisites_evs,
        test_claude_headless_evs, verify_results_evs]
      simp [fsTargets, fsTarget]
    case pos =>
      refine ⟨rest ++
        [cfg0.skillDir.dropLast ++ ["test-runs", env.mkdtempName, "claude_output.log"]],
        ?_, hunder, hWD⟩
      rw [mainRun_trace_all_passed env cfg0 h1 h2 h3 h4 h5]
      rw [fsTargets_append, fsTargets_append, fsTargets_append, fsTargets_append,
        fsTargets_append, fsTargets_append, hset, hexecT, check_prerequisites_evs,
        test_claude_headless_evs, verify_results_evs]
      simp [fsTargets, fsTarget]

/-- C9 (amended): the very first filesystem side effect of a run is the
creation of the parent `test-runs` directory, which lies outside the working
directory; the working directory is created immediately after, and every
subsequent filesystem write of the whole process — phases and cleanup — is
inside the working directory (the only other state written outside it being
environment variables). -/
theorem fs_writes_confined_after_test_runs_dir (env : Env) (cfg0 : Config)
    (h0 : cfg0.workDir = none) :
    fsTargets (runProcess env cfg0).trace = [] ∨
    ∃ rest, fsTargets (runProcess env cfg0).trace =
      (cfg0.skillDir.dropLast ++ ["test-runs"]) ::
      (cfg0.skillDir.dropLast ++ ["test-runs", env.mkdtempName]) :: rest ∧
      (∀ p ∈ rest, isUnder (cfg0.skillDir.dropLast ++ ["test-runs", env.mkdtempName]) p
        = true) ∧
      isUnder (cfg0.skillDir.dropLast ++ ["test-runs", env.mkdtempName])
        (cfg0.skillDir.dropLast ++ ["test-runs"]) = false := by
  rcases mainRun_fsTargets env cfg0 with ⟨hmain, hwd⟩ | ⟨rest, hmain, hrest, hwd⟩
  · left
    rw [runProcess_trace, fsTargets_append, hmain,
      cleanupEvs_fsTargets_none _ _ (by rw [hwd, h0])]
    rfl
  · right
    refine ⟨rest ++ fsTargets (cleanupEvs env.cleanupEnv (mainRun env cfg0).cfg),
      ?_, ?_, ?_⟩
    · rw [runProcess_trace, fsTargets_append, hmain]
      simp [List.cons_append]
    · intro p hp
      rcases List.mem_append.mp hp with hp | hp
      · exact hrest p hp
      · exact cleanupEvs_fsTargets_under env.cleanupEnv _ _ hwd p hp
    · rw [show cfg0.skillDir.dropLast ++ ["test-runs", env.mkdtempName] =
        (cfg0.skillDir.dropLast ++ ["test-runs"]) ++ [env.mkdtempName] from by simp]
      exact isUnder_parent_false _ _

/-- C9 witness: on the fully successful local run the whole-process write
trace starts with the `test-runs` parent directory, then the working
directory, and everything after stays inside the working directory. -/
theorem fs_writes_confined_after_test_runs_dir_witness :
    fsTargets (runProcess happyEnv cfgLocal).trace = [] ∨
    ∃ rest, fsTargets (runProcess happyEnv cfgLocal).trace =
      (cfgLocal.skillDir.dropLast ++ ["test-runs"]) ::
      (cfgLocal.skillDir.dropLast ++ ["test-runs", happyEnv.mkdtempName]) :: rest ∧
      (∀ p ∈ rest,
        isUnder (cfgLocal.skillDir.dropLast ++ ["test-runs", happyEnv.mkdtempName]) p
          = true) ∧
      isUnder (cfgLocal.skillDir.dropLast ++ ["test-runs", happyEnv.mkdtempName])
        (cfgLocal.skillDir.dropLast ++ ["test-runs"]) = false :=
  fs_writes_confined_after_test_runs_dir happyEnv cfgLocal rfl

/-- C9 counterexample: on a successful run the first filesystem write of the
whole process is the creation of the `test-runs` parent directory, which
precedes the creation of the working directory and lies outside it — so the
working directory is not created before every other filesystem side effect,
and not every write is inside it. -/
theorem workdir_not_first_fs_write :
    (fsTargets (runProcess happyEnv cfgLocal).trace).head? =
      some (cfgLocal.skillDir.dropLast ++ ["test-runs"]) ∧
    (mainRun happyEnv cfgLocal).cfg.workDir =
      some (cfgLocal.skillDir.dropLast ++ ["test-runs", happyEnv.mkdtempName]) ∧
    isUnder (cfgLocal.skillDir.dropLast ++ ["test-runs", happyEnv.mkdtempName])
      (cfgLocal.skillDir.dropLast ++ ["test-runs"]) = false := by
  decide
